import Mathlib

/-!
Verification of the CultureMatch matching engine against its design
specification.  The persisted data model is embedded from
`backend/scripts/init.sql` and the frontend TypeScript sources; the backend
business logic (match lifecycle, upsert, scorer, message gating) is not part
of the available sources and is modelled from the specification where needed.
-/

namespace CultureMatch

/-! ## Schema embedding (from backend/scripts/init.sql) -/

/-- Columns of the `matches` table, transcribed from
`backend/scripts/init.sql` lines 47-57. -/
def matchesTableColumns : List String :=
  ["id", "user_a_id", "user_b_id", "compatibility_score", "shared_items",
   "icebreaker_prompt", "status", "created_at"]

/-- Allowed values of `matches.status`, from the CHECK constraint on
`init.sql` line 54: `status IN ('pending', 'accepted', 'rejected', 'matched')`. -/
def statusCheckAllowed : List String :=
  ["pending", "accepted", "rejected", "matched"]

/-- Fields of the frontend `Match` interface (TypeScript types file),
which exposes the persisted lifecycle state as a single `status` field. -/
def matchInterfaceFields : List String :=
  ["id", "matched_user", "compatibility_score", "shared_items",
   "icebreaker_prompt", "status", "created_at"]

/-- The CHECK constraint on `user_interactions.rating` from `init.sql`
line 39: `rating >= 0.5 AND rating <= 5`. -/
def ratingCheckOk (r : ℚ) : Prop := 1/2 ≤ r ∧ r ≤ 5

instance : DecidablePred ratingCheckOk := fun r =>
  inferInstanceAs (Decidable (1/2 ≤ r ∧ r ≤ 5))

/-- Values representable in the column type `DECIMAL(2,1)` of
`user_interactions.rating` (`init.sql` line 39): numbers with one decimal
digit of scale. -/
def decimal21 (r : ℚ) : Prop := ∃ n : ℤ, r = (n : ℚ) / 10

/-- A rating on the 0.5-step scale claimed by the specification. -/
def halfStep (r : ℚ) : Prop := ∃ k : ℤ, r = (k : ℚ) / 2

/-! ## Lifecycle state -/

/-- The four user-facing match statuses, from the `matches.status` CHECK
constraint and the frontend `Match.status` union type. -/
inductive MatchStatus
  | pending
  | accepted
  | rejected
  | matched
deriving DecidableEq, Repr

/-- The string stored in the `status` column for each status value. -/
def statusToString : MatchStatus → String
  | .pending => "pending"
  | .accepted => "accepted"
  | .rejected => "rejected"
  | .matched => "matched"

/-- Modelled from the spec: the per-pair lifecycle state recommended in
§4.4/§9 — two independent acceptance flags and a reject flag.  The shipped
schema does *not* persist these flags (see `matchesTableColumns`); it stores
the single `status` column instead. -/
structure MatchFlags where
  accepted_by_a : Bool
  accepted_by_b : Bool
  rejected : Bool
deriving DecidableEq, Repr

/-- Modelled from the spec: §4.4 derived status — `rejected` if the reject
flag is set, else `matched` if both acceptance flags are set, else
`accepted` if exactly one is set, else `pending`.  The deriving code is in
the missing backend. -/
def derivedStatus (f : MatchFlags) : MatchStatus :=
  if f.rejected then .rejected
  else if f.accepted_by_a && f.accepted_by_b then .matched
  else if f.accepted_by_a || f.accepted_by_b then .accepted
  else .pending

/-- A terminal status per §4.4: `matched` or `rejected`. -/
def isTerminal : MatchStatus → Bool
  | .matched => true
  | .rejected => true
  | _ => false

/-- Claim C1, counterexample: the persisted `matches` schema does not
consist of two acceptance-flag columns — it has no `accepted_by_a` or
`accepted_by_b` column and instead a single `status` column (and the
frontend `Match` interface likewise exposes only `status`). -/
theorem claim_C1_counterexample :
    matchesTableColumns.contains "accepted_by_a" = false ∧
    matchesTableColumns.contains "accepted_by_b" = false ∧
    matchesTableColumns.contains "status" = true ∧
    matchInterfaceFields.contains "accepted_by_a" = false ∧
    matchInterfaceFields.contains "status" = true := by
  decide

/-- Claim C1, amended: the schema persists lifecycle state as a single
`status` column constrained to pending/accepted/rejected/matched; in the
spec's recommended two-flag model the derived status is a pure function of
the flags, characterised by: `rejected` iff the reject flag is set,
`matched` iff both acceptance flags are set and the reject flag is clear,
`accepted` iff the reject flag is clear and exactly one acceptance flag is
set, `pending` iff no flag is set; and the derived status always lands in
the schema's allowed status set. -/
theorem claim_C1_amended :
    matchesTableColumns.contains "status" = true ∧
    matchesTableColumns.contains "accepted_by_a" = false ∧
    ∀ f : MatchFlags,
      (derivedStatus f = .rejected ↔ f.rejected = true) ∧
      (derivedStatus f = .matched ↔
        f.accepted_by_a = true ∧ f.accepted_by_b = true ∧ f.rejected = false) ∧
      (derivedStatus f = .accepted ↔
        f.rejected = false ∧ f.accepted_by_a ≠ f.accepted_by_b) ∧
      (derivedStatus f = .pending ↔
        f.rejected = false ∧ f.accepted_by_a = false ∧ f.accepted_by_b = false) ∧
      statusCheckAllowed.contains (statusToString (derivedStatus f)) = true := by
  refine ⟨by decide, by decide, ?_⟩
  intro f
  obtain ⟨a, b, r⟩ := f
  cases a <;> cases b <;> cases r <;> simp [derivedStatus, statusToString, statusCheckAllowed]

/-! ## Lifecycle operations (modelled from the spec §4.4, §4.5, §7) -/

/-- Error taxonomy from spec §7. -/
inductive ApiError
  | NotFound
  | InvalidTransition
  | PermissionDenied
  | ValidationError
deriving DecidableEq, Repr

/-- A respond action, from the frontend API (`'accept' | 'reject'`). -/
inductive MatchAction
  | accept
  | reject
deriving DecidableEq, Repr

/-- A persisted match row as far as the lifecycle is concerned: the two
party ids and the lifecycle flags. -/
structure MatchRow where
  userA : Nat
  userB : Nat
  flags : MatchFlags
deriving DecidableEq, Repr

/-- A row of the `messages` table (`init.sql` lines 60-67). -/
structure Message where
  matchId : Nat
  senderId : Option Nat
  content : String
  isSystem : Bool
deriving DecidableEq, Repr

/-- Backend state relevant to the lifecycle: the known users, the match
rows keyed by match id, and the message log. -/
structure Store where
  users : List Nat
  rows : Nat → Option MatchRow
  messages : List Message

/-- Modelled from the spec: whether `actor`'s requested action has already
been applied to the row (their acceptance flag for accept, the reject flag
for reject); re-issuing such an action is a no-op success per §4.4/§7. -/
def appliedAlready (row : MatchRow) (actor : Nat) (a : MatchAction) : Bool :=
  match a with
  | .accept => if actor = row.userA then row.flags.accepted_by_a else row.flags.accepted_by_b
  | .reject => row.flags.rejected

/-- Modelled from the spec: setting the actor's acceptance flag (for
accept) or the reject flag (for reject). -/
def applyAction (row : MatchRow) (actor : Nat) (a : MatchAction) : MatchRow :=
  match a with
  | .accept =>
    if actor = row.userA then
      { row with flags := { row.flags with accepted_by_a := true } }
    else
      { row with flags := { row.flags with accepted_by_b := true } }
  | .reject => { row with flags := { row.flags with rejected := true } }

/-- The system message the lifecycle appends on the transition into
`matched` (§4.4). -/
def matchSystemMessage (mid : Nat) : Message :=
  ⟨mid, none, "It is a match!", true⟩

/-- Modelled from the spec: `respond(matchId, actingUser, action)` (§4.4):
NotFound if the match or actor is unknown or the actor is not a party;
no-op success if the same action already applied (idempotent, §7);
InvalidTransition if the derived status is terminal; otherwise an atomic
read-modify-write that sets the actor's flag and, exactly when the row
transitions into `matched`, appends the one system message (§5). -/
def respond (st : Store) (mid actor : Nat) (a : MatchAction) :
    Except ApiError Store :=
  match st.rows mid with
  | none => .error .NotFound
  | some row =>
    if actor ∈ st.users then
      if actor = row.userA ∨ actor = row.userB then
        if appliedAlready row actor a then .ok st
        else if isTerminal (derivedStatus row.flags) then .error .InvalidTransition
        else
          let row' := applyAction row actor a
          .ok { users := st.users
                rows := fun n => if n = mid then some row' else st.rows n
                messages :=
                  if derivedStatus row'.flags = .matched then
                    st.messages ++ [matchSystemMessage mid]
                  else st.messages }
      else .error .NotFound
    else .error .NotFound

/-- The state after a respond call, where a failed call leaves the state
unchanged. -/
def respondResultState (st : Store) (mid actor : Nat) (a : MatchAction) : Store :=
  match respond st mid actor a with
  | .ok st' => st'
  | .error _ => st

/-- The derived status of the match with id `mid` in a store. -/
def statusAt (st : Store) (mid : Nat) : Option MatchStatus :=
  (st.rows mid).map (fun r => derivedStatus r.flags)

/-- In a terminal state every respond call leaves the store unchanged
(a no-op success or an error). -/
theorem respondResultState_terminal (st : Store) (mid actor : Nat)
    (a : MatchAction) (row : MatchRow) (hrow : st.rows mid = some row)
    (hterm : isTerminal (derivedStatus row.flags) = true) :
    respondResultState st mid actor a = st := by
  unfold respondResultState respond
  rw [hrow]
  by_cases hu : actor ∈ st.users
  · by_cases hp : actor = row.userA ∨ actor = row.userB
    · by_cases happ : appliedAlready row actor a = true
      · simp [hu, hp, happ]
      · simp [hu, hp, happ, hterm]
    · simp [hu, hp]
  · simp [hu]

/-- Claim C3: terminal states absorb — for a match whose derived status is
`rejected`, a subsequent accept does not change the derived status, and for
a match whose derived status is `matched`, no subsequent action changes it. -/
theorem claim_C3 (st : Store) (mid actor : Nat) (a : MatchAction)
    (row : MatchRow) (hrow : st.rows mid = some row) :
    (derivedStatus row.flags = .rejected → a = .accept →
      statusAt (respondResultState st mid actor a) mid = some .rejected) ∧
    (derivedStatus row.flags = .matched →
      statusAt (respondResultState st mid actor a) mid = some .matched) := by
  constructor
  · intro hrej _
    rw [respondResultState_terminal st mid actor a row hrow (by rw [hrej]; rfl)]
    simp [statusAt, hrow, hrej]
  · intro hm
    rw [respondResultState_terminal st mid actor a row hrow (by rw [hm]; rfl)]
    simp [statusAt, hrow, hm]

/-- A concrete store used to witness the lifecycle theorems: users 1 and 2,
one match (id 0) between them. -/
def witnessStore (f : MatchFlags) : Store :=
  ⟨[1, 2], fun n => if n = 0 then some ⟨1, 2, f⟩ else none, []⟩

theorem claim_C3_witness :
    statusAt (respondResultState (witnessStore ⟨false, false, true⟩) 0 1 .accept) 0
        = some .rejected ∧
    statusAt (respondResultState (witnessStore ⟨true, true, false⟩) 0 2 .reject) 0
        = some .matched :=
  ⟨(claim_C3 (witnessStore ⟨false, false, true⟩) 0 1 .accept ⟨1, 2, ⟨false, false, true⟩⟩
      rfl).1 rfl rfl,
   (claim_C3 (witnessStore ⟨true, true, false⟩) 0 2 .reject ⟨1, 2, ⟨true, true, false⟩⟩
      rfl).2 rfl⟩

/-- After a party applies an action to a row, that action reads as already
applied on the resulting row. -/
theorem appliedAlready_applyAction (row : MatchRow) (actor : Nat) (a : MatchAction) :
    appliedAlready (applyAction row actor a) actor a = true := by
  cases a with
  | accept => by_cases h : actor = row.userA <;> simp [appliedAlready, applyAction, h]
  | reject => simp [appliedAlready, applyAction]

/-- Claim C4: `respond(matchId, actingUser, action)` fails with NotFound
when the match is unknown, the actor is unknown, or the actor is not a
party to the match; fails with InvalidTransition when the derived status is
terminal and the action was not already applied; otherwise sets the actor's
acceptance flag (for accept) or the reject flag (for reject); and
re-issuing an action that already applied succeeds as a no-op. -/
theorem claim_C4 (st : Store) (mid actor : Nat) (a : MatchAction) :
    (st.rows mid = none → respond st mid actor a = .error .NotFound) ∧
    (∀ row, st.rows mid = some row → actor ∉ st.users →
      respond st mid actor a = .error .NotFound) ∧
    (∀ row, st.rows mid = some row → actor ≠ row.userA → actor ≠ row.userB →
      respond st mid actor a = .error .NotFound) ∧
    (∀ row, st.rows mid = some row → actor ∈ st.users →
      (actor = row.userA ∨ actor = row.userB) →
      appliedAlready row actor a = false →
      isTerminal (derivedStatus row.flags) = true →
      respond st mid actor a = .error .InvalidTransition) ∧
    (∀ row, st.rows mid = some row → actor ∈ st.users →
      (actor = row.userA ∨ actor = row.userB) →
      appliedAlready row actor a = false →
      isTerminal (derivedStatus row.flags) = false →
      ∃ st', respond st mid actor a = .ok st' ∧
        st'.rows mid = some (applyAction row actor a) ∧
        appliedAlready (applyAction row actor a) actor a = true) ∧
    (∀ row, st.rows mid = some row → actor ∈ st.users →
      (actor = row.userA ∨ actor = row.userB) →
      appliedAlready row actor a = true →
      respond st mid actor a = .ok st) := by
  refine ⟨?_, ?_, ?_, ?_, ?_, ?_⟩
  · intro h; unfold respond; rw [h]
  · intro row h hu; unfold respond; rw [h]; simp [hu]
  · intro row h ha hb
    unfold respond; rw [h]
    by_cases hu : actor ∈ st.users
    · simp [hu, ha, hb]
    · simp [hu]
  · intro row h hu hp happ hterm
    unfold respond; rw [h]; simp [hu, hp, happ, hterm]
  · intro row h hu hp happ hterm
    have hresp : respond st mid actor a =
        .ok ⟨st.users,
             fun n => if n = mid then some (applyAction row actor a) else st.rows n,
             if derivedStatus (applyAction row actor a).flags = .matched then
               st.messages ++ [matchSystemMessage mid]
             else st.messages⟩ := by
      unfold respond; rw [h]; simp [hu, hp, happ, hterm]
    exact ⟨_, hresp, by simp, appliedAlready_applyAction row actor a⟩
  · intro row h hu hp happ
    unfold respond; rw [h]; simp [hu, hp, happ]

theorem claim_C4_witness :
    respond (witnessStore ⟨false, false, false⟩) 5 1 .accept = .error .NotFound ∧
    respond (witnessStore ⟨false, false, false⟩) 0 7 .accept = .error .NotFound ∧
    respond (witnessStore ⟨false, false, false⟩) 0 3 .accept = .error .NotFound ∧
    respond (witnessStore ⟨false, false, true⟩) 0 1 .accept = .error .InvalidTransition ∧
    (∃ st', respond (witnessStore ⟨false, false, false⟩) 0 1 .accept = .ok st' ∧
      st'.rows 0 = some (applyAction ⟨1, 2, ⟨false, false, false⟩⟩ 1 .accept) ∧
      appliedAlready (applyAction ⟨1, 2, ⟨false, false, false⟩⟩ 1 .accept) 1 .accept = true) ∧
    respond (witnessStore ⟨true, false, false⟩) 0 1 .accept
      = .ok (witnessStore ⟨true, false, false⟩) :=
  ⟨(claim_C4 (witnessStore ⟨false, false, false⟩) 5 1 .accept).1 rfl,
   (claim_C4 (witnessStore ⟨false, false, false⟩) 0 7 .accept).2.1
     ⟨1, 2, ⟨false, false, false⟩⟩ rfl (by decide),
   (claim_C4 (witnessStore ⟨false, false, false⟩) 0 3 .accept).2.2.1
     ⟨1, 2, ⟨false, false, false⟩⟩ rfl (by decide) (by decide),
   (claim_C4 (witnessStore ⟨false, false, true⟩) 0 1 .accept).2.2.2.1
     ⟨1, 2, ⟨false, false, true⟩⟩ rfl (by decide) (by decide) rfl rfl,
   (claim_C4 (witnessStore ⟨false, false, false⟩) 0 1 .accept).2.2.2.2.1
     ⟨1, 2, ⟨false, false, false⟩⟩ rfl (by decide) (by decide) rfl rfl,
   (claim_C4 (witnessStore ⟨true, false, false⟩) 0 1 .accept).2.2.2.2.2
     ⟨1, 2, ⟨true, false, false⟩⟩ rfl (by decide) (by decide) rfl⟩

/-! ## Race safety of the matched transition (spec §4.4, §5) -/

/-- Number of system messages attached to match `mid`. -/
def sysCountMsgs (msgs : List Message) (mid : Nat) : Nat :=
  (msgs.filter (fun m => m.matchId == mid && m.isSystem)).length

/-- Run a sequence of respond calls against the same match; per spec §5
each call is a single atomic read-modify-write, so any concurrent execution
is one such serialization.  A failed call leaves the state unchanged. -/
def runResponds (st : Store) (mid : Nat) (calls : List (Nat × MatchAction)) : Store :=
  calls.foldl (fun s c => respondResultState s mid c.1 c.2) st

theorem sysCountMsgs_append_system (msgs : List Message) (mid : Nat) :
    sysCountMsgs (msgs ++ [matchSystemMessage mid]) mid
      = sysCountMsgs msgs mid + 1 := by
  simp [sysCountMsgs, matchSystemMessage, List.filter_append, List.filter]

/-- One accept by party `A` (the first party of the row): the resulting
state has `A`'s flag set and the system-message count tracks whether the
row is now matched, whether or not the call was a retry. -/
theorem respond_accept_stepA (st : Store) (mid A B : Nat)
    (fa fb : Bool) (base : Nat)
    (hA : A ∈ st.users)
    (hrow : st.rows mid = some ⟨A, B, ⟨fa, fb, false⟩⟩)
    (hcnt : sysCountMsgs st.messages mid = base + (if fa && fb then 1 else 0)) :
    (respondResultState st mid A .accept).users = st.users ∧
    (respondResultState st mid A .accept).rows mid = some ⟨A, B, ⟨true, fb, false⟩⟩ ∧
    sysCountMsgs (respondResultState st mid A .accept).messages mid
      = base + (if fb then 1 else 0) := by
  unfold respondResultState respond
  rw [hrow]
  cases fa <;> cases fb <;>
    simp [appliedAlready, applyAction, derivedStatus, isTerminal, hA, hrow, hcnt,
      sysCountMsgs_append_system]

/-- One accept by party `B` (the second party of the row). -/
theorem respond_accept_stepB (st : Store) (mid A B : Nat) (hAB : A ≠ B)
    (fa fb : Bool) (base : Nat)
    (hB : B ∈ st.users)
    (hrow : st.rows mid = some ⟨A, B, ⟨fa, fb, false⟩⟩)
    (hcnt : sysCountMsgs st.messages mid = base + (if fa && fb then 1 else 0)) :
    (respondResultState st mid B .accept).users = st.users ∧
    (respondResultState st mid B .accept).rows mid = some ⟨A, B, ⟨fa, true, false⟩⟩ ∧
    sysCountMsgs (respondResultState st mid B .accept).messages mid
      = base + (if fa then 1 else 0) := by
  have hBA : B ≠ A := Ne.symm hAB
  unfold respondResultState respond
  rw [hrow]
  cases fa <;> cases fb <;>
    simp [appliedAlready, applyAction, derivedStatus, isTerminal, hB, hBA, hrow, hcnt,
      sysCountMsgs_append_system]

/-- Invariant for any serialization of accept calls by the two parties of a
non-rejected match: the acceptance flags record exactly who has accepted so
far, and the system-message count exceeds its baseline exactly when the row
has become matched. -/
theorem run_accepts_invariant (mid A B : Nat) (hAB : A ≠ B) :
    ∀ (callers : List Nat) (st : Store) (fa fb : Bool) (base : Nat),
      A ∈ st.users → B ∈ st.users →
      st.rows mid = some ⟨A, B, ⟨fa, fb, false⟩⟩ →
      sysCountMsgs st.messages mid = base + (if fa && fb then 1 else 0) →
      (∀ c ∈ callers, c = A ∨ c = B) →
      (runResponds st mid (callers.map (fun c => (c, MatchAction.accept)))).rows mid
        = some ⟨A, B, ⟨fa || callers.contains A, fb || callers.contains B, false⟩⟩ ∧
      sysCountMsgs
        (runResponds st mid (callers.map (fun c => (c, MatchAction.accept)))).messages mid
        = base + (if (fa || callers.contains A) && (fb || callers.contains B)
                  then 1 else 0) := by
  intro callers
  induction callers with
  | nil =>
    intro st fa fb base _ _ hrow hcnt _
    constructor
    · simpa [runResponds] using hrow
    · simpa [runResponds] using hcnt
  | cons c rest ih =>
    intro st fa fb base hA hB hrow hcnt hcall
    have hstep : runResponds st mid ((c :: rest).map (fun x => (x, MatchAction.accept)))
        = runResponds (respondResultState st mid c .accept) mid
            (rest.map (fun x => (x, MatchAction.accept))) := by
      simp [runResponds]
    rw [hstep]
    have hrest : ∀ x ∈ rest, x = A ∨ x = B := fun x hx => hcall x (List.mem_cons_of_mem c hx)
    obtain hc | hc := hcall c (List.mem_cons_self c rest)
    · subst hc
      obtain ⟨hu, hr, hm⟩ := respond_accept_stepA st mid c B fa fb base hA hrow hcnt
      obtain ⟨hr', hm'⟩ := ih (respondResultState st mid c .accept) true fb base
        (by rw [hu]; exact hA) (by rw [hu]; exact hB) hr (by simpa using hm) hrest
      have h1 : (c :: rest).contains c = true := by simp [List.contains_cons]
      have h2 : (c :: rest).contains B = rest.contains B := by
        simp [List.contains_cons, Ne.symm hAB]
      constructor
      · rw [hr', h1, h2]; simp
      · rw [hm', h1, h2]; simp
    · subst hc
      obtain ⟨hu, hr, hm⟩ := respond_accept_stepB st mid A c hAB fa fb base hB hrow hcnt
      obtain ⟨hr', hm'⟩ := ih (respondResultState st mid c .accept) fa true base
        (by rw [hu]; exact hA) (by rw [hu]; exact hB) hr (by simpa using hm) hrest
      have h1 : (c :: rest).contains c = true := by simp [List.contains_cons]
      have h2 : (c :: rest).contains A = rest.contains A := by
        simp [List.contains_cons, hAB]
      constructor
      · rw [hr', h1, h2]; simp
      · rw [hm', h1, h2]; simp

/-- Claim C6: on a pending match, any serialization of concurrent
`respond(accept)` calls from both parties — including arbitrary retries —
yields exactly one transition to `matched` and appends exactly one system
message to the thread. -/
theorem claim_C6 (st : Store) (mid A B : Nat) (callers : List Nat)
    (hAB : A ≠ B) (hA : A ∈ st.users) (hB : B ∈ st.users)
    (hrow : st.rows mid = some ⟨A, B, ⟨false, false, false⟩⟩)
    (hcallers : ∀ c ∈ callers, c = A ∨ c = B)
    (hAc : A ∈ callers) (hBc : B ∈ callers) :
    statusAt (runResponds st mid (callers.map (fun c => (c, MatchAction.accept)))) mid
      = some .matched ∧
    sysCountMsgs
      (runResponds st mid (callers.map (fun c => (c, MatchAction.accept)))).messages mid
      = sysCountMsgs st.messages mid + 1 := by
  have hca : callers.contains A = true := List.elem_eq_true_of_mem hAc
  have hcb : callers.contains B = true := List.elem_eq_true_of_mem hBc
  obtain ⟨hr, hm⟩ := run_accepts_invariant mid A B hAB callers st false false
    (sysCountMsgs st.messages mid) hA hB hrow (by simp) hcallers
  rw [hca, hcb] at hr hm
  refine ⟨?_, by simpa using hm⟩
  simp [statusAt, hr, derivedStatus]

theorem claim_C6_witness :
    statusAt (runResponds (witnessStore ⟨false, false, false⟩) 0
        ([1, 2, 1, 2].map (fun c => (c, MatchAction.accept)))) 0 = some .matched ∧
    sysCountMsgs
      (runResponds (witnessStore ⟨false, false, false⟩) 0
        ([1, 2, 1, 2].map (fun c => (c, MatchAction.accept)))).messages 0
      = sysCountMsgs (witnessStore ⟨false, false, false⟩).messages 0 + 1 :=
  claim_C6 (witnessStore ⟨false, false, false⟩) 0 1 2 [1, 2, 1, 2]
    (by decide) (by decide) (by decide) rfl (by decide) (by decide) (by decide)

/-! ## Match upsert (spec §4.2, §5, §6; `UNIQUE(user_a_id, user_b_id)` in init.sql) -/

/-- Modelled from the spec: the canonical unordered-pair key
`(min(userA,userB), max(userA,userB))` (§6). -/
def canonicalPair (a b : Nat) : Nat × Nat := (min a b, max a b)

/-- Whether the table already holds a row keyed by `k`. -/
def pairExists (rows : List ((Nat × Nat) × MatchRow)) (k : Nat × Nat) : Bool :=
  rows.any (fun p => p.1 == k)

/-- Modelled from the spec: `UpsertMatch(userA, userB)` — atomic upsert
keyed on the canonical pair: if a row for the pair exists the table is
unchanged (the caller reads back the winner's row), else a new row is
inserted in the pending state (§3, §5). -/
def upsertMatch (rows : List ((Nat × Nat) × MatchRow)) (a b : Nat) :
    List ((Nat × Nat) × MatchRow) :=
  let k := canonicalPair a b
  if pairExists rows k then rows
  else (k, ⟨k.1, k.2, ⟨false, false, false⟩⟩) :: rows

/-- Number of persisted rows for the unordered pair `{a, b}`. -/
def countPair (rows : List ((Nat × Nat) × MatchRow)) (a b : Nat) : Nat :=
  (rows.filter (fun p => p.1 == canonicalPair a b)).length

/-- The store reached from an empty matches table by a sequence of
`UpsertMatch` calls. -/
def runUpserts (calls : List (Nat × Nat)) : List ((Nat × Nat) × MatchRow) :=
  calls.foldl (fun rows c => upsertMatch rows c.1 c.2) []

theorem pairExists_false_iff (rows : List ((Nat × Nat) × MatchRow)) (a b : Nat) :
    pairExists rows (canonicalPair a b) = false ↔ countPair rows a b = 0 := by
  simp [pairExists, countPair, List.length_eq_zero, List.filter_eq_nil_iff]

theorem countPair_upsert_same (rows : List ((Nat × Nat) × MatchRow)) (a b : Nat) :
    countPair (upsertMatch rows a b) a b = max (countPair rows a b) 1 := by
  cases h : pairExists rows (canonicalPair a b) with
  | false =>
    have h0 : countPair rows a b = 0 := (pairExists_false_iff rows a b).mp h
    simp only [countPair] at h0 ⊢
    simp [upsertMatch, h, List.filter_cons, h0]
  | true =>
    have h1 : countPair rows a b ≠ 0 := fun h0 => by
      rw [(pairExists_false_iff rows a b).mpr h0] at h
      exact Bool.noConfusion h
    simp [upsertMatch, h, Nat.max_eq_left (Nat.one_le_iff_ne_zero.mpr h1)]

theorem countPair_upsert_other (rows : List ((Nat × Nat) × MatchRow)) (a b x y : Nat)
    (h : canonicalPair a b ≠ canonicalPair x y) :
    countPair (upsertMatch rows x y) a b = countPair rows a b := by
  cases hx : pairExists rows (canonicalPair x y) with
  | false => simp [upsertMatch, hx, countPair, List.filter_cons, Ne.symm h]
  | true => simp [upsertMatch, hx]

theorem countPair_upsert_le (rows : List ((Nat × Nat) × MatchRow)) (a b x y : Nat)
    (h : countPair rows a b ≤ 1) :
    countPair (upsertMatch rows x y) a b ≤ 1 := by
  by_cases hk : canonicalPair a b = canonicalPair x y
  · have : countPair (upsertMatch rows x y) x y = max (countPair rows x y) 1 :=
      countPair_upsert_same rows x y
    have hab : countPair (upsertMatch rows x y) a b
        = countPair (upsertMatch rows x y) x y := by simp [countPair, hk]
    have hab' : countPair rows x y = countPair rows a b := by simp [countPair, ← hk]
    rw [hab, this, hab']
    omega
  · rw [countPair_upsert_other rows a b x y hk]; exact h

theorem countPair_upsert_ge (rows : List ((Nat × Nat) × MatchRow)) (a b x y : Nat)
    (h : 1 ≤ countPair rows a b) :
    1 ≤ countPair (upsertMatch rows x y) a b := by
  by_cases hk : canonicalPair a b = canonicalPair x y
  · have hab : countPair (upsertMatch rows x y) a b
        = countPair (upsertMatch rows x y) x y := by simp [countPair, hk]
    have hab' : countPair rows x y = countPair rows a b := by simp [countPair, ← hk]
    rw [hab, countPair_upsert_same rows x y, hab']
    omega
  · rw [countPair_upsert_other rows a b x y hk]; exact h

theorem countPair_fold_le (a b : Nat) :
    ∀ (calls : List (Nat × Nat)) (rows : List ((Nat × Nat) × MatchRow)),
      countPair rows a b ≤ 1 →
      countPair (calls.foldl (fun r c => upsertMatch r c.1 c.2) rows) a b ≤ 1 := by
  intro calls
  induction calls with
  | nil => intro rows h; simpa using h
  | cons c rest ih =>
    intro rows h
    simpa [List.foldl_cons] using ih (upsertMatch rows c.1 c.2)
      (countPair_upsert_le rows a b c.1 c.2 h)

theorem countPair_fold_ge (a b : Nat) :
    ∀ (calls : List (Nat × Nat)) (rows : List ((Nat × Nat) × MatchRow)),
      1 ≤ countPair rows a b ∨ (a, b) ∈ calls ∨ (b, a) ∈ calls →
      1 ≤ countPair (calls.foldl (fun r c => upsertMatch r c.1 c.2) rows) a b := by
  intro calls
  induction calls with
  | nil =>
    intro rows h
    simpa using h.resolve_right (by simp)
  | cons c rest ih =>
    intro rows h
    rw [List.foldl_cons]
    apply ih
    rcases h with h | h | h
    · exact Or.inl (countPair_upsert_ge rows a b c.1 c.2 h)
    · rcases List.mem_cons.mp h with h | h
      · left
        subst h
        rw [countPair_upsert_same rows a b]
        omega
      · exact Or.inr (Or.inl h)
    · rcases List.mem_cons.mp h with h | h
      · left
        have hk : canonicalPair a b = canonicalPair b a := by
          simp [canonicalPair, Nat.min_comm, Nat.max_comm]
        have hab : countPair (upsertMatch rows b a) a b
            = countPair (upsertMatch rows b a) b a := by simp [countPair, hk]
        subst h
        rw [hab, countPair_upsert_same rows b a]
        omega
      · exact Or.inr (Or.inr h)

/-- Claim C2: in every state reachable from an empty matches table by
`UpsertMatch` calls, at most one row exists per unordered user pair; the key
is the canonical sorted pair, so `(A,B)` and `(B,A)` coincide, and once the
pair has been upserted — in either argument order, any number of times —
exactly one row for it is persisted. -/
theorem claim_C2 (A B : Nat) (calls : List (Nat × Nat)) :
    canonicalPair A B = canonicalPair B A ∧
    countPair (runUpserts calls) A B ≤ 1 ∧
    ((A, B) ∈ calls ∨ (B, A) ∈ calls → countPair (runUpserts calls) A B = 1) := by
  refine ⟨by simp [canonicalPair, Nat.min_comm, Nat.max_comm], ?_, ?_⟩
  · exact countPair_fold_le A B calls [] (by simp [countPair])
  · intro h
    have h1 := countPair_fold_le A B calls [] (by simp [countPair])
    have h2 := countPair_fold_ge A B calls [] (Or.inr h)
    unfold runUpserts
    omega

theorem claim_C2_witness :
    canonicalPair 3 7 = canonicalPair 7 3 ∧
    countPair (runUpserts [(3, 7), (7, 3), (3, 7)]) 3 7 ≤ 1 ∧
    countPair (runUpserts [(3, 7), (7, 3), (3, 7)]) 3 7 = 1 :=
  ⟨(claim_C2 3 7 [(3, 7), (7, 3), (3, 7)]).1,
   (claim_C2 3 7 [(3, 7), (7, 3), (3, 7)]).2.1,
   (claim_C2 3 7 [(3, 7), (7, 3), (3, 7)]).2.2 (by decide)⟩

/-! ## Message gating (spec §4.5, §7) -/

/-- Modelled from the spec: `append(matchId, senderId|none, content,
isSystem)` (§4.5) — system messages (inserted by the lifecycle itself) are
always permitted; a user-authored message is permitted only when the
match's derived status is `matched`, else the call fails with
PermissionDenied. -/
def appendMessage (st : Store) (mid : Nat) (sender : Option Nat)
    (content : String) (isSystem : Bool) : Except ApiError Store :=
  match st.rows mid with
  | none => .error .NotFound
  | some row =>
    if isSystem || decide (derivedStatus row.flags = .matched) then
      .ok { st with messages := st.messages ++ [⟨mid, sender, content, isSystem⟩] }
    else .error .PermissionDenied

/-- Claim C5: appending a user-authored (non-system) message fails with
PermissionDenied unless the match's derived status is `matched`, in which
case it appends the message; a system message is always permitted. -/
theorem claim_C5 (st : Store) (mid : Nat) (sender : Option Nat)
    (content : String) (row : MatchRow) (hrow : st.rows mid = some row) :
    (derivedStatus row.flags ≠ .matched →
      appendMessage st mid sender content false = .error .PermissionDenied) ∧
    (derivedStatus row.flags = .matched →
      appendMessage st mid sender content false
        = .ok { st with messages := st.messages ++ [⟨mid, sender, content, false⟩] }) ∧
    appendMessage st mid sender content true
      = .ok { st with messages := st.messages ++ [⟨mid, sender, content, true⟩] } := by
  refine ⟨?_, ?_, ?_⟩
  · intro h
    unfold appendMessage
    rw [hrow]
    simp [h]
  · intro h
    unfold appendMessage
    rw [hrow]
    simp [h]
  · unfold appendMessage
    rw [hrow]
    simp

theorem claim_C5_witness :
    appendMessage (witnessStore ⟨true, false, false⟩) 0 (some 1) "hi" false
      = .error .PermissionDenied ∧
    appendMessage (witnessStore ⟨true, true, false⟩) 0 (some 1) "hi" false
      = .ok { witnessStore ⟨true, true, false⟩ with
              messages := (witnessStore ⟨true, true, false⟩).messages
                ++ [⟨0, some 1, "hi", false⟩] } ∧
    appendMessage (witnessStore ⟨true, false, false⟩) 0 none "sys" true
      = .ok { witnessStore ⟨true, false, false⟩ with
              messages := (witnessStore ⟨true, false, false⟩).messages
                ++ [⟨0, none, "sys", true⟩] } :=
  ⟨(claim_C5 (witnessStore ⟨true, false, false⟩) 0 (some 1) "hi"
      ⟨1, 2, ⟨true, false, false⟩⟩ rfl).1 (by decide),
   (claim_C5 (witnessStore ⟨true, true, false⟩) 0 (some 1) "hi"
      ⟨1, 2, ⟨true, true, false⟩⟩ rfl).2.1 (by decide),
   (claim_C5 (witnessStore ⟨true, false, false⟩) 0 none "sys"
      ⟨1, 2, ⟨true, false, false⟩⟩ rfl).2.2⟩

/-! ## Compatibility scorer (spec §4.1) -/

/-- A qualifying interaction as the scorer sees it: the media item and the
optional rating. -/
structure Interaction where
  mediaId : Nat
  rating : Option ℚ
deriving DecidableEq, Repr

/-- A scorer input for one user: qualifying interactions and the optional
taste vector. -/
structure ScoreInput where
  items : List Interaction
  vector : Option (List ℚ)
deriving DecidableEq, Repr

/-- Media ids a user has a qualifying interaction with. -/
def qualifyingIds (items : List Interaction) : List Nat :=
  (items.map (fun i => i.mediaId)).dedup

/-- Modelled from the spec: §4.1 step 1 — media where both users have a
qualifying interaction. -/
def sharedIds (a b : List Interaction) : List Nat :=
  (qualifyingIds a).filter (fun m => (qualifyingIds b).contains m)

/-- The union of the two users' qualifying media ids. -/
def unionIds (a b : List Interaction) : List Nat :=
  (qualifyingIds a ++ qualifyingIds b).dedup

/-- The user's rating for a media item, if any. -/
def ratingOf (items : List Interaction) (m : Nat) : Option ℚ :=
  match items.find? (fun i => i.mediaId == m) with
  | some i => i.rating
  | none => none

/-- Modelled from the spec: §4.1 step 2 — the closeness contribution of a
shared item: `1 - |rating_a - rating_b| / 4.5` when both carry a rating,
else the fixed baseline `0.5`. -/
def contribution (a b : List Interaction) (m : Nat) : ℚ :=
  match ratingOf a m, ratingOf b m with
  | some ra, some rb => 1 - |ra - rb| / (9/2)
  | _, _ => 1/2

def clampQ (lo hi x : ℚ) : ℚ := max lo (min hi x)

def averageQ (l : List ℚ) : ℚ := l.sum / (l.length : ℚ)

/-- Modelled from the spec: §4.1 step 3 — overlap score: average
contribution, scaled by `|shared| / |union|` and by 60, clamped to
`[0, 60]` (the average of an empty list is 0). -/
def overlapScore (a b : List Interaction) : ℚ :=
  let s := sharedIds a b
  clampQ 0 60 (averageQ (s.map (contribution a b)) *
    ((s.length : ℚ) / ((unionIds a b).length : ℚ)) * 60)

/-- Modelled from the spec: §4.1 step 4 — the cosine similarity, clamped to
`[-1, 1]`, rescaled linearly to `[0, 40]`.  The similarity value itself is
kept abstract (an arbitrary rational argument), since every claim depends
on it only through this clamp. -/
def embeddingScore (sim : ℚ) : ℚ := (clampQ (-1) 1 sim + 1) / 2 * 40

/-- Modelled from the spec: the embedding component is present only when
both users have a taste vector; otherwise it is 0 and the overlap score is
not renormalized. -/
def embeddingComponent (a b : ScoreInput) (sim : ℚ) : ℚ :=
  if a.vector.isSome && b.vector.isSome then embeddingScore sim else 0

/-- Rounding to two decimals (scores are stored at 2-decimal precision). -/
def round2 (x : ℚ) : ℚ := ((round (x * 100) : ℤ) : ℚ) / 100

/-- Modelled from the spec: §4.1 step 5 — the final score
`round(overlap_score + embedding_score, 2)` clamped to `[0, 100]`. -/
def finalScore (a b : ScoreInput) (sim : ℚ) : ℚ :=
  clampQ 0 100 (round2 (overlapScore a.items b.items + embeddingComponent a b sim))

/-- The shared-items snapshot: each shared media id with both users'
ratings. -/
def sharedSnapshot (a b : List Interaction) : List (Nat × Option ℚ × Option ℚ) :=
  (sharedIds a b).map (fun m => (m, ratingOf a m, ratingOf b m))

/-- Claim C7: for every pair of inputs (interaction sets, optional vectors,
any similarity value) the final score lies in `[0, 100]`; with no shared
qualifying items and no taste vectors the score is exactly 0 and the
shared-items snapshot is empty. -/
theorem claim_C7 (a b : ScoreInput) (sim : ℚ) :
    (0 ≤ finalScore a b sim ∧ finalScore a b sim ≤ 100) ∧
    (sharedIds a.items b.items = [] → a.vector = none → b.vector = none →
      finalScore a b sim = 0 ∧ sharedSnapshot a.items b.items = []) := by
  refine ⟨⟨le_max_left 0 _, max_le (by norm_num) (min_le_left _ _)⟩, ?_⟩
  intro hs hav hbv
  have hov : overlapScore a.items b.items = 0 := by
    simp [overlapScore, hs, averageQ, clampQ]
  have hem : embeddingComponent a b sim = 0 := by
    simp [embeddingComponent, hav, hbv]
  refine ⟨?_, by simp [sharedSnapshot, hs]⟩
  simp [finalScore, hov, hem, round2, clampQ]

theorem claim_C7_witness :
    (0 ≤ finalScore ⟨[], none⟩ ⟨[], none⟩ 0 ∧ finalScore ⟨[], none⟩ ⟨[], none⟩ 0 ≤ 100) ∧
    finalScore ⟨[], none⟩ ⟨[], none⟩ 0 = 0 ∧
    sharedSnapshot (⟨[], none⟩ : ScoreInput).items (⟨[], none⟩ : ScoreInput).items = [] :=
  ⟨(claim_C7 ⟨[], none⟩ ⟨[], none⟩ 0).1,
   (claim_C7 ⟨[], none⟩ ⟨[], none⟩ 0).2 rfl rfl rfl⟩

/-! ## Compatibility label (frontend utils, source lines 36-43) -/

/-- Transcription of `getCompatibilityLabel` from the frontend utils
(source lines 36-43): the threshold chain over the numeric score. -/
def getCompatibilityLabel (score : ℚ) : String :=
  if score ≥ 90 then "Soulmate Material"
  else if score ≥ 80 then "Amazing Vibes"
  else if score ≥ 70 then "Great Match"
  else if score ≥ 60 then "Good Potential"
  else if score ≥ 50 then "Worth Exploring"
  else "Different Tastes"

/-- The band index assigned by `getCompatibilityLabel`, 0 (lowest) to 5. -/
def labelBand (score : ℚ) : Nat :=
  if score ≥ 90 then 5
  else if score ≥ 80 then 4
  else if score ≥ 70 then 3
  else if score ≥ 60 then 2
  else if score ≥ 50 then 1
  else 0

/-- The label of each band index. -/
def labelOfBand : Nat → String
  | 5 => "Soulmate Material"
  | 4 => "Amazing Vibes"
  | 3 => "Great Match"
  | 2 => "Good Potential"
  | 1 => "Worth Exploring"
  | _ => "Different Tastes"

/-- Claim C8: on the §8 end-to-end scenario (user A top4 = Movie1:4,
Movie2:3; user B top4 = Movie1:4.5, Movie3:2; no taste vectors) the scorer
yields shared = {Movie1 with ratings (4, 4.5)}, contribution 8/9 ≈ 0.89,
union size 3, overlap score 160/9 ≈ 17.8, embedding component 0, final
score 17.78 (≈ 18), which is below 50 and labelled in the lowest band. -/
theorem claim_C8 :
    sharedSnapshot [⟨1, some 4⟩, ⟨2, some 3⟩] [⟨1, some (9/2)⟩, ⟨3, some 2⟩]
      = [(1, some 4, some (9/2))] ∧
    contribution [⟨1, some 4⟩, ⟨2, some 3⟩] [⟨1, some (9/2)⟩, ⟨3, some 2⟩] 1 = 8/9 ∧
    |(8/9 : ℚ) - 89/100| < 1/100 ∧
    (unionIds [⟨1, some 4⟩, ⟨2, some 3⟩] [⟨1, some (9/2)⟩, ⟨3, some 2⟩]).length = 3 ∧
    overlapScore [⟨1, some 4⟩, ⟨2, some 3⟩] [⟨1, some (9/2)⟩, ⟨3, some 2⟩] = 160/9 ∧
    |(160/9 : ℚ) - 89/5| < 1/10 ∧
    embeddingComponent ⟨[⟨1, some 4⟩, ⟨2, some 3⟩], none⟩
      ⟨[⟨1, some (9/2)⟩, ⟨3, some 2⟩], none⟩ 0 = 0 ∧
    finalScore ⟨[⟨1, some 4⟩, ⟨2, some 3⟩], none⟩
      ⟨[⟨1, some (9/2)⟩, ⟨3, some 2⟩], none⟩ 0 = 889/50 ∧
    round (889/50 : ℚ) = 18 ∧
    (889/50 : ℚ) < 50 ∧
    getCompatibilityLabel (889/50) = "Different Tastes" := by
  have hcontrib :
      contribution [⟨1, some 4⟩, ⟨2, some 3⟩] [⟨1, some (9/2)⟩, ⟨3, some 2⟩] 1 = 8/9 := by
    show (1 : ℚ) - |(4 : ℚ) - 9/2| / (9/2) = 8/9
    rw [show (4 : ℚ) - 9/2 = -(1/2) from by norm_num, abs_neg,
      abs_of_nonneg (by norm_num : (0 : ℚ) ≤ 1/2)]
    norm_num
  have hshared :
      sharedIds [⟨1, some 4⟩, ⟨2, some 3⟩] [⟨1, some (9/2)⟩, ⟨3, some 2⟩] = [1] := rfl
  have hunion :
      (unionIds [⟨1, some 4⟩, ⟨2, some 3⟩] [⟨1, some (9/2)⟩, ⟨3, some 2⟩]).length = 3 := rfl
  have hov :
      overlapScore [⟨1, some 4⟩, ⟨2, some 3⟩] [⟨1, some (9/2)⟩, ⟨3, some 2⟩] = 160/9 := by
    simp only [overlapScore, hshared, hunion]
    simp only [List.map_cons, List.map_nil, averageQ, List.sum_cons, List.sum_nil,
      List.length_cons, List.length_nil, hcontrib]
    rw [clampQ]
    push_cast
    rw [min_eq_right (by norm_num), max_eq_right (by norm_num)]
    norm_num
  have hemb :
      embeddingComponent ⟨[⟨1, some 4⟩, ⟨2, some 3⟩], none⟩
        ⟨[⟨1, some (9/2)⟩, ⟨3, some 2⟩], none⟩ 0 = 0 := rfl
  have hround : round ((160/9 : ℚ) * 100) = 1778 := by
    rw [round_eq]
    norm_num
  have hfinal :
      finalScore ⟨[⟨1, some 4⟩, ⟨2, some 3⟩], none⟩
        ⟨[⟨1, some (9/2)⟩, ⟨3, some 2⟩], none⟩ 0 = 889/50 := by
    simp only [finalScore, hemb]
    have hitems :
        overlapScore (⟨[⟨1, some 4⟩, ⟨2, some 3⟩], none⟩ : ScoreInput).items
          (⟨[⟨1, some (9/2)⟩, ⟨3, some 2⟩], none⟩ : ScoreInput).items = 160/9 := hov
    rw [hitems, add_zero, round2, hround, clampQ]
    rw [min_eq_right (by norm_num), max_eq_right (by norm_num)]
    norm_num
  refine ⟨rfl, hcontrib, ?_, hunion, hov, ?_, hemb, hfinal, ?_, by norm_num, ?_⟩
  · rw [show (8/9 : ℚ) - 89/100 = -(1/900) from by norm_num, abs_neg,
      abs_of_nonneg (by norm_num : (0 : ℚ) ≤ 1/900)]
    norm_num
  · rw [show (160/9 : ℚ) - 89/5 = -(1/45) from by norm_num, abs_neg,
      abs_of_nonneg (by norm_num : (0 : ℚ) ≤ 1/45)]
    norm_num
  · rw [round_eq]
    norm_num
  · simp only [getCompatibilityLabel]
    rw [if_neg (by norm_num), if_neg (by norm_num), if_neg (by norm_num),
      if_neg (by norm_num), if_neg (by norm_num)]

/-- Claim C10: `getCompatibilityLabel` is total with exactly six possible
labels, factors through the monotone band index (`x ≤ y` never assigns `x`
a higher band than `y`), every score below 50 gets "Different Tastes" and
every score at or above 90 gets "Soulmate Material". -/
theorem claim_C10 :
    (∀ x : ℚ, getCompatibilityLabel x = labelOfBand (labelBand x)) ∧
    (∀ x : ℚ, getCompatibilityLabel x ∈
      ["Soulmate Material", "Amazing Vibes", "Great Match", "Good Potential",
       "Worth Exploring", "Different Tastes"]) ∧
    (∀ x y : ℚ, x ≤ y → labelBand x ≤ labelBand y) ∧
    (∀ x : ℚ, x < 50 → getCompatibilityLabel x = "Different Tastes") ∧
    (∀ x : ℚ, 90 ≤ x → getCompatibilityLabel x = "Soulmate Material") := by
  refine ⟨?_, ?_, ?_, ?_, ?_⟩
  · intro x
    unfold getCompatibilityLabel labelBand labelOfBand
    split_ifs <;> rfl
  · intro x
    unfold getCompatibilityLabel
    split_ifs <;> simp
  · intro x y hxy
    unfold labelBand
    split_ifs <;> (first | omega | (exfalso; linarith))
  · intro x hx
    have h90 : ¬ x ≥ 90 := by linarith
    have h80 : ¬ x ≥ 80 := by linarith
    have h70 : ¬ x ≥ 70 := by linarith
    have h60 : ¬ x ≥ 60 := by linarith
    have h50 : ¬ x ≥ 50 := by linarith
    simp [getCompatibilityLabel, h90, h80, h70, h60, h50]
  · intro x hx
    have h90 : x ≥ 90 := hx
    simp [getCompatibilityLabel, h90]

theorem claim_C10_witness :
    getCompatibilityLabel 40 = labelOfBand (labelBand 40) ∧
    labelBand 40 ≤ labelBand 95 ∧
    getCompatibilityLabel 20 = "Different Tastes" ∧
    getCompatibilityLabel 95 = "Soulmate Material" :=
  ⟨claim_C10.1 40,
   claim_C10.2.2.1 40 95 (by norm_num),
   claim_C10.2.2.2.1 20 (by norm_num),
   claim_C10.2.2.2.2 95 (by norm_num)⟩

/-! ## Rating validation (init.sql line 39; spec §3, §7) -/

/-- Modelled from the spec: recording a rating validates it against the
schema CHECK bounds `0.5 <= rating <= 5`; outside that range the attempt
fails with ValidationError (§7). -/
def recordRating (r : ℚ) : Except ApiError ℚ :=
  if ratingCheckOk r then .ok r else .error .ValidationError

/-- Claim C9, counterexample: the rating 4.7 is representable in the
`DECIMAL(2,1)` column, satisfies the schema CHECK constraint, is accepted
by recording — yet is not a multiple of 0.5, so the claimed 0.5 granularity
does not hold of persisted ratings. -/
theorem claim_C9_counterexample :
    decimal21 (47/10) ∧ ratingCheckOk (47/10) ∧
    recordRating (47/10) = .ok (47/10) ∧ ¬ halfStep (47/10) := by
  refine ⟨⟨47, by norm_num⟩, by norm_num [ratingCheckOk], ?_, ?_⟩
  · simp [recordRating, ratingCheckOk]
    norm_num
  · rintro ⟨k, hk⟩
    have h1 : (k : ℚ) * 5 = 47 := by
      field_simp at hk
      linarith
    have h2 : k * 5 = 47 := by exact_mod_cast h1
    omega

/-- Claim C9, amended: a recorded rating is accepted exactly when it lies
in `[0.5, 5]` (the schema CHECK), an out-of-range rating fails with
ValidationError, and every persisted rating therefore lies in `[0.5, 5]` —
at the column's 0.1 granularity (`DECIMAL(2,1)`), not 0.5. -/
theorem claim_C9 (r : ℚ) :
    (ratingCheckOk r → recordRating r = .ok r) ∧
    (¬ ratingCheckOk r → recordRating r = .error .ValidationError) ∧
    (recordRating r = .ok r → 1/2 ≤ r ∧ r ≤ 5) := by
  refine ⟨?_, ?_, ?_⟩
  · intro h; simp [recordRating, h]
  · intro h; simp [recordRating, h]
  · intro h
    by_cases hc : ratingCheckOk r
    · exact hc
    · simp [recordRating, hc] at h

theorem claim_C9_witness :
    recordRating (47/10) = .ok (47/10) ∧
    recordRating 6 = .error .ValidationError ∧
    (1/2 : ℚ) ≤ 47/10 ∧ (47/10 : ℚ) ≤ 5 :=
  ⟨(claim_C9 (47/10)).1 (by norm_num [ratingCheckOk]),
   (claim_C9 6).2.1 (by norm_num [ratingCheckOk]),
   ((claim_C9 (47/10)).2.2
     ((claim_C9 (47/10)).1 (by norm_num [ratingCheckOk]))).1,
   ((claim_C9 (47/10)).2.2
     ((claim_C9 (47/10)).1 (by norm_num [ratingCheckOk]))).2⟩

end CultureMatch
